import Mathlib

/-!
Verification of the CEM-RL repository (files `ges.py` and `models.py`)
against its natural-language specification.  The Python code is shallowly
embedded: networks are lists of flattened tensors, the training driver and
evaluation loop become explicit state-passing functions, Python exceptions
become `Except`, and machine floats are modelled by an ordered scalar type
(instantiated at `ℚ` or `ℤ` in concrete statements).
-/

namespace CEMRL

/-! ## models.py: the `RLNN` base class

A network is modelled by the flattened contents of its learnable tensors in
declaration order: `List (List α)`, one inner list per tensor, the inner
list length playing the role of `np.product(param.size())`.  Values are
kept abstract in `α` because `set_params` / `get_params` only move them. -/

/-- A network's learnable state: one flattened value list per tensor, in
declaration order (`self.parameters()` order). -/
abbrev Net (α : Type) : Type := List (List α)

/-- models.py `RLNN.get_params`: `np.hstack` of every tensor flattened, in
declaration order. -/
def get_params {α : Type} (net : Net α) : List α :=
  List.flatten net

/-- models.py `RLNN.get_size`: the total learnable-parameter count, the
length of `get_params`. -/
def get_size {α : Type} (net : Net α) : Nat :=
  (get_params net).length

/-- models.py `RLNN.set_params`: walk the tensors in declaration order,
consuming for each one the contiguous slice `params[cpt:cpt+tmp]` with
`tmp` the tensor's element count.  Numpy slicing returns a short slice when
the vector is exhausted, and `torch.Tensor.view` then raises because the
element counts differ; this is the only failure path.  Leftover entries of
`params` after the last tensor are silently ignored, as in the source. -/
def set_params {α : Type} : Net α → List α → Except String (Net α)
  | [], _ => Except.ok []
  | p :: ps, v =>
    let tmp := p.length
    let slice := List.take tmp v
    if slice.length = tmp then
      match set_params ps (List.drop tmp v) with
      | Except.ok rest => Except.ok (slice :: rest)
      | Except.error e => Except.error e
    else
      Except.error "RuntimeError: shape mismatch in view"

/-! ## ges.py line 108: attribute lookup `actor.actor_grad`

`train_es` ends with `grad = actor.actor_grad(agent.critic, memory,
batch_size=1024)`.  The actor is an `ActorERL` (models.py); we record the
method names its class hierarchy actually defines and model Python
attribute resolution on them. -/

/-- Methods defined by `ActorERL` and its base class `RLNN` in models.py
(Python resolves missing attributes through the class hierarchy; the
`nn.Module` machinery defines no `actor_grad` either). -/
def ActorERL_attrs : List String :=
  ["forward", "set_params", "train_actor", "get_params", "get_grads",
   "get_size", "load_model", "save_model"]

/-- Python attribute resolution on an `ActorERL` instance, restricted to
the methods the repository defines. -/
def resolveAttr (name : String) : Except String String :=
  if ActorERL_attrs.contains name then Except.ok name
  else Except.error ("AttributeError: ActorERL object has no attribute " ++ name)

/-- ges.py line 108: the method name the gradient step of `train_es`
looks up on the actor. -/
def train_es_grad_attr : String := "actor_grad"

/-- The gradient step of `train_es` as executed: resolve the attribute,
then (were it found) call it with `batch_size=1024`. -/
def train_es_gradStep : Except String (String × Nat) :=
  match resolveAttr train_es_grad_attr with
  | Except.ok name => Except.ok (name, 1024)
  | Except.error e => Except.error e

/-! ## ges.py lines 267-270: random seeding at startup -/

/-- Which random sources got seeded, and with what (`none` = left
unseeded). -/
structure SeedState where
  npSeed : Option Int
  envSeed : Option Int
deriving DecidableEq, Repr

/-- ges.py lines 267-270: `if args.seed > 0: np.random.seed(args.seed);
env.seed(args.seed)`. -/
def applySeeding (seed : Int) : SeedState :=
  if seed > 0 then { npSeed := some seed, envSeed := some seed }
  else { npSeed := none, envSeed := none }

/-! ## ges.py lines 287-295: mode dispatch -/

/-- Outcome of the driver's mode dispatch. -/
inductive Dispatch where
  | runTrain : Dispatch
  | runTest : Dispatch
  | invalidMode : String → Dispatch
deriving DecidableEq, Repr

/-- ges.py lines 287-295: dispatch on `args.mode`; anything other than
`train` or `test` raises `RuntimeError('undefined mode ...')`, which no
caller catches, aborting the process. -/
def dispatchMode (mode : String) : Dispatch :=
  if mode = "train" then Dispatch.runTrain
  else if mode = "test" then Dispatch.runTest
  else Dispatch.invalidMode ("undefined mode " ++ mode)

/-! ## ges.py `evaluate`: the episode/evaluation loop

The gym environment is external; it is modelled as an abstract transition
system over an environment-state type `σ` and an observation type `ω`,
with scalar values (actions, rewards) in an ordered type `α`.  The
`while not done` loop is given fuel (an episode that never reaches `done`
never terminates in the source either); exhausted fuel is a distinguished
error, excluded by hypothesis in theorems about completed runs. -/

/-- The external gym environment: `reset` returns an initial observation,
`step` consumes an action and returns (next observation, reward, done);
`actionSample` models `env.action_space.sample()`, indexed by the step
counter. -/
structure EnvM (σ ω α : Type) where
  reset : σ → σ × ω
  step : σ → List α → σ × ω × α × Bool
  actionSample : Nat → List α

/-- The `noise` argument of `evaluate`: Python `None`, Python `False`
(what `test` passes), or an actual noise process whose successive
`sample()` calls are indexed by the step counter. -/
inductive NoiseArg (α : Type) where
  | noneArg : NoiseArg α
  | falseArg : NoiseArg α
  | proc : (Nat → List α) → NoiseArg α

/-- One transition record as stored by `memory.add`:
(obs, n_obs, action, reward, done). -/
abbrev Transition (ω α : Type) : Type := ω × ω × List α × α × Bool

/-- Events the evaluation loop triggers on the environment, in order:
a `reset` call, or a `step` call with the action passed and the done flag
returned. -/
inductive EnvEvent (α : Type) where
  | reset : EnvEvent α
  | step : List α → Bool → EnvEvent α
deriving DecidableEq, Repr

/-- Elementwise `np.clip(xs, lo, hi)` = `minimum(maximum(xs, lo), hi)`. -/
def npClip {α : Type} [LinearOrder α] (xs : List α) (lo hi : α) : List α :=
  xs.map (fun x => min (max x lo) hi)

/-- The error a `noise.sample()` call on Python `False` raises. -/
def boolSampleErr : String :=
  "AttributeError: bool object has no attribute sample"

/-- The `policy` closure of `evaluate` (ges.py lines 30-43), called once
per step: with `random=False` it runs the actor on the observation, adds
`noise.sample()` whenever `noise is not None` (so also for Python
`False`, where the call raises), and clips elementwise to
`[-max_action, max_action]`; with `random=True` it returns
`env.action_space.sample()`. -/
def policyStep {σ ω α : Type} [LinearOrder α] [Add α] [Neg α]
    (env : EnvM σ ω α) (actor : ω → List α) (noise : NoiseArg α)
    (random : Bool) (m : α) (k : Nat) (obs : ω) : Except String (List α) :=
  if random then Except.ok (env.actionSample k)
  else
    let action := actor obs
    match noise with
    | NoiseArg.noneArg => Except.ok (npClip action (-m) m)
    | NoiseArg.falseArg => Except.error boolSampleErr
    | NoiseArg.proc f =>
        Except.ok (npClip (List.zipWith (· + ·) action (f k)) (-m) m)

/-- The body of one episode of `evaluate` (ges.py lines 54-73): the
`while not done` loop.  Each iteration asks the policy for an action,
steps the environment, accumulates score and the step counter, appends to
replay memory when `add_memory`, and — when `done` — calls `env.reset()`
once more (discarding its observation) before the loop exits.  Returns
the final environment state, step counter, episode score, memory, and the
list of environment events this loop triggered. -/
def epLoop {σ ω α : Type} [LinearOrder α] [Add α] [Neg α]
    (env : EnvM σ ω α) (actor : ω → List α) (noise : NoiseArg α)
    (random addMem : Bool) (m : α) :
    Nat → σ → ω → Nat → α → List (Transition ω α) →
    Except String (σ × Nat × α × List (Transition ω α) × List (EnvEvent α))
  | 0, _, _, _, _, _ => Except.error "fuel exhausted"
  | fuel + 1, s, obs, k, score, mem =>
    match policyStep env actor noise random m k obs with
    | Except.error e => Except.error e
    | Except.ok action =>
      match env.step s action with
      | (s2, nobs, reward, done) =>
        let mem2 := if addMem then mem ++ [(obs, nobs, action, reward, done)] else mem
        if done then
          Except.ok ((env.reset s2).1, k + 1, score + reward, mem2,
            [EnvEvent.step action true, EnvEvent.reset])
        else
          match epLoop env actor noise random addMem m fuel s2 nobs (k + 1) (score + reward) mem2 with
          | Except.error e => Except.error e
          | Except.ok (s3, k3, sc3, mem3, tr) =>
            Except.ok (s3, k3, sc3, mem3, EnvEvent.step action false :: tr)

/-- The episode loop of `evaluate` (ges.py lines 48-75): run `n` episodes,
each starting with `env.reset()`, collecting per-episode scores in order,
threading the shared replay memory and the step counter, and recording
each episode's environment-event trace (the initial reset included). -/
def evalEpisodes {σ ω α : Type} [LinearOrder α] [Add α] [Neg α] [Zero α]
    (env : EnvM σ ω α) (actor : ω → List α) (noise : NoiseArg α)
    (random addMem : Bool) (m : α) (fuel : Nat) :
    Nat → σ → Nat → List (Transition ω α) →
    Except String (σ × Nat × List α × List (Transition ω α) × List (List (EnvEvent α)))
  | 0, s, k, mem => Except.ok (s, k, [], mem, [])
  | n + 1, s, k, mem =>
    match epLoop env actor noise random addMem m fuel (env.reset s).1 (env.reset s).2 k 0 mem with
    | Except.error e => Except.error e
    | Except.ok (s2, k2, score, mem2, tr) =>
      match evalEpisodes env actor noise random addMem m fuel n s2 k2 mem2 with
      | Except.error e => Except.error e
      | Except.ok (s3, k3, scores, mem3, trs) =>
        Except.ok (s3, k3, score :: scores, mem3, (EnvEvent.reset :: tr) :: trs)

/-- ges.py `evaluate`: runs the episodes starting from a fresh step
counter and returns `(np.mean(scores), steps)`. -/
def evaluateRun {σ ω α : Type} [LinearOrderedField α]
    (env : EnvM σ ω α) (actor : ω → List α) (noise : NoiseArg α)
    (random addMem : Bool) (m : α) (fuel n_episodes : Nat) (s : σ)
    (mem : List (Transition ω α)) : Except String (α × Nat) :=
  match evalEpisodes env actor noise random addMem m fuel n_episodes s 0 mem with
  | Except.error e => Except.error e
  | Except.ok (_, k, scores, _, _) => Except.ok (scores.sum / (scores.length : α), k)

/-- ges.py `test` (lines 172-190): build an actor, load its weights from
`filename`, and evaluate it for `n_test` episodes passing `noise=False`
(and `add_memory` left at its default `True`, `random` at `False`).  The
loaded actor is abstracted as the function `actor`. -/
def test_run {σ ω α : Type} [LinearOrderedField α]
    (env : EnvM σ ω α) (actor : ω → List α) (m : α)
    (fuel n_test : Nat) (s : σ) : Except String (α × Nat) :=
  evaluateRun env actor NoiseArg.falseArg false true m fuel n_test s []

/-! ## ges.py `train` (lines 141-169): the generation loop and score log

`train_rl` (lines 114-138) has its evaluation code commented out and just
trains the critic, returning the literal pair `0, 0`; `train` unpacks it
as `steps_rl, f` and records `f` as `best_score`.  The evolutionary phase
`train_es` is abstracted by the number of environment steps it consumes
per generation (`stepsEA`); the in-memory data frame `df` is a row list,
and every `df.to_pickle` overwrite is recorded in `persisted` (the on-disk
file after the run is the last entry). -/

/-- ges.py `train_rl` return value: the literal `return 0, 0`. -/
def train_rl_result : Nat × Int := (0, 0)

/-- State of the `train` loop: the running step total, the in-memory score
data frame (rows `(total_steps, best_score)`), and the successive on-disk
snapshots written by `df.to_pickle` (each overwrites the file). -/
structure TrainState where
  total_steps : Nat
  df : List (Nat × Int)
  persisted : List (List (Nat × Int))
deriving DecidableEq, Repr

/-- One iteration of the `for n in range(n_gen)` body of `train`
(ges.py lines 149-169): run the evolutionary phase, run `train_rl`,
update `total_steps`, save the model and persist the *current* `df`, then
append this generation's `(total_steps, best_score)` row to `df`. -/
def trainGen (stepsEA : Nat → Nat) (start_steps : Nat)
    (st : TrainState) (n : Nat) : TrainState :=
  let _random := decide (st.total_steps < start_steps)
  let steps_ea := stepsEA n
  let steps_rl := train_rl_result.1
  let f := train_rl_result.2
  let total := st.total_steps + steps_rl + steps_ea
  let persisted := st.persisted ++ [st.df]
  let best_score := f
  let df := st.df ++ [(total, best_score)]
  { total_steps := total, df := df, persisted := persisted }

/-- ges.py `train`: `n_gen` iterations of `trainGen` from the initial
state (`total_steps = 0`, empty data frame, nothing persisted yet). -/
def trainRun (stepsEA : Nat → Nat) (start_steps n_gen : Nat) : TrainState :=
  (List.range n_gen).foldl (trainGen stepsEA start_steps)
    { total_steps := 0, df := [], persisted := [] }

/-! ## ges.py line 265 and models.py `ActorERL.forward`

`max_action = int(env.action_space.high[0])` truncates the float bound
toward zero (Python `int()`); the actor's output layer multiplies a
`tanh`-bounded vector by `max_action`, and the policy clips to
`[-max_action, max_action]`. -/

/-- Python `int()` on a rational: truncation toward zero. -/
def pyInt (q : ℚ) : ℤ :=
  if 0 ≤ q then ⌊q⌋ else -⌊-q⌋

/-- ges.py line 265: `max_action = int(env.action_space.high[0])`. -/
def maxActionOf (high : ℚ) : ℤ :=
  pyInt high

/-- The output scaling of models.py `ActorERL.forward` (line 122):
`max_action * x`, where `x` is the `tanh`-activated final layer output
(kept abstract: any vector). -/
def actorERL_scale (max_action : ℤ) (t : List ℚ) : List ℚ :=
  t.map (fun x => (max_action : ℚ) * x)

/-! ## Helper lemmas -/

/-- Unfolding lemma for `set_params` on a nonempty tensor list. -/
theorem set_params_cons {α : Type} (p : List α) (ps : Net α) (v : List α) :
    set_params (p :: ps) v =
      (if (v.take p.length).length = p.length then
        match set_params ps (v.drop p.length) with
        | Except.ok rest => Except.ok (v.take p.length :: rest)
        | Except.error e => Except.error e
      else Except.error "RuntimeError: shape mismatch in view") := rfl

/-- The parameter count of a network splits over its head tensor. -/
theorem get_size_cons {α : Type} (p : List α) (ps : Net α) :
    get_size (p :: ps) = p.length + get_size ps := by
  simp [get_size, get_params]

/-! ## Claim theorems -/

/-- C5: for every network state, `set_params (get_params net)` restores
exactly the same network, so any output computed from the parameters is
unchanged by the round trip. -/
theorem set_params_get_params_roundtrip {α : Type} (net : Net α) :
    set_params net (get_params net) = Except.ok net := by
  induction net with
  | nil => rfl
  | cons p ps ih =>
    have hv : get_params (p :: ps) = p ++ List.flatten ps := by
      simp [get_params]
    rw [hv, set_params_cons, List.take_left, List.drop_left, if_pos rfl]
    have hps : get_params ps = List.flatten ps := rfl
    rw [hps] at ih
    rw [ih]

/-- C4 (counterexample): a parameter vector strictly longer than the
network's parameter count does not make `set_params` fail — the excess
tail is silently ignored, refuting the claim that loading fails whenever
the lengths differ. -/
theorem set_params_excess_length_succeeds :
    get_size ([[0, 0]] : Net ℤ) ≠ ([1, 2, 3] : List ℤ).length ∧
    set_params ([[0, 0]] : Net ℤ) ([1, 2, 3] : List ℤ) = Except.ok [[1, 2]] :=
  ⟨by decide, rfl⟩

/-- C4 (amended): `set_params` succeeds exactly when the vector holds at
least the network's parameter count (a too-short vector fails at the
first short slice, while excess entries are ignored); on success every
tensor keeps its element count and the written values are the consumed
prefix of the vector, consumed contiguously in declaration order. -/
theorem set_params_spec {α : Type} (net : Net α) (v : List α) :
    ((∃ r, set_params net v = Except.ok r) ↔ get_size net ≤ v.length) ∧
    (∀ r, set_params net v = Except.ok r →
      r.map List.length = net.map List.length ∧
      List.flatten r = v.take (get_size net)) := by
  induction net generalizing v with
  | nil =>
    refine ⟨⟨fun _ => ?_, fun _ => ⟨[], rfl⟩⟩, fun r hr => ?_⟩
    · simp [get_size, get_params]
    · have hr2 : ([] : Net α) = r := by
        have : (Except.ok ([] : Net α) : Except String (Net α)) = Except.ok r := hr
        exact Except.ok.inj this
      subst hr2
      simp [get_size, get_params]
  | cons p ps ih =>
    rcases le_or_lt p.length v.length with hlen | hlen
    · have hslice : (v.take p.length).length = p.length := by
        rw [List.length_take]
        omega
      have hdrop : (v.drop p.length).length = v.length - p.length :=
        List.length_drop p.length v
      refine ⟨⟨fun hex => ?_, fun hle => ?_⟩, fun r hr => ?_⟩
      · rcases hex with ⟨r, hr⟩
        rw [set_params_cons, if_pos hslice] at hr
        cases hrec : set_params ps (v.drop p.length) with
        | ok rest =>
          have h2 : get_size ps ≤ (v.drop p.length).length :=
            ((ih (v.drop p.length)).1).mp ⟨rest, hrec⟩
          rw [get_size_cons]
          omega
        | error e =>
          rw [hrec] at hr
          cases hr
      · rw [set_params_cons, if_pos hslice]
        have h2 : get_size ps ≤ (v.drop p.length).length := by
          rw [hdrop]
          rw [get_size_cons] at hle
          omega
        rcases ((ih (v.drop p.length)).1).mpr h2 with ⟨rest, hrec⟩
        rw [hrec]
        exact ⟨_, rfl⟩
      · rw [set_params_cons, if_pos hslice] at hr
        cases hrec : set_params ps (v.drop p.length) with
        | ok rest =>
          rw [hrec] at hr
          have hr2 : (v.take p.length :: rest : Net α) = r := Except.ok.inj hr
          subst hr2
          rcases (ih (v.drop p.length)).2 rest hrec with ⟨hmap, hflat⟩
          refine ⟨?_, ?_⟩
          · simp [hslice, hmap]
          · rw [get_size_cons]
            rw [List.take_add v p.length (get_size ps)]
            simp [hflat]
        | error e =>
          rw [hrec] at hr
          cases hr
    · have hslice : ¬ (v.take p.length).length = p.length := by
        rw [List.length_take]
        omega
      refine ⟨⟨fun hex => ?_, fun hle => ?_⟩, fun r hr => ?_⟩
      · rcases hex with ⟨r, hr⟩
        rw [set_params_cons, if_neg hslice] at hr
        cases hr
      · rw [get_size_cons] at hle
        omega
      · rw [set_params_cons, if_neg hslice] at hr
        cases hr

/-- C4 (witness): on a two-tensor network with parameter count 3, a
length-3 vector loads successfully and the loaded values are exactly the
consumed prefix. -/
theorem set_params_spec_witness :
    (∃ r, set_params ([[0, 0], [0]] : Net ℤ) ([1, 2, 3] : List ℤ) = Except.ok r) ∧
    List.flatten ([[1, 2], [3]] : Net ℤ) =
      ([1, 2, 3] : List ℤ).take (get_size ([[0, 0], [0]] : Net ℤ)) :=
  ⟨(set_params_spec ([[0, 0], [0]] : Net ℤ) [1, 2, 3]).1.mpr (by decide),
   ((set_params_spec ([[0, 0], [0]] : Net ℤ) [1, 2, 3]).2 [[1, 2], [3]] rfl).2⟩

/-- C2: the gradient step of `train_es` looks up `actor_grad` on the
actor, but `ActorERL` and its base class define `train_actor` (and no
`actor_grad`), so the call raises `AttributeError` instead of computing
and injecting the critic-informed gradient. -/
theorem train_es_actor_grad_missing :
    train_es_gradStep =
      Except.error ("AttributeError: ActorERL object has no attribute " ++ "actor_grad") ∧
    ActorERL_attrs.contains "train_actor" = true ∧
    ActorERL_attrs.contains "actor_grad" = false :=
  ⟨rfl, rfl, rfl⟩

/-- C6 (counterexample): the seed value 0 satisfies the claim's premise
`seed ≥ 0`, yet startup leaves both random sources unseeded, because the
source guard is the strict `args.seed > 0`. -/
theorem seeding_zero_unseeded :
    (0 : ℤ) ≥ 0 ∧ applySeeding 0 = { npSeed := none, envSeed := none } :=
  ⟨by decide, rfl⟩

/-- C6 (amended): startup seeds numpy and the environment if and only if
the configured seed is strictly positive; every seed ≤ 0 — including 0 —
leaves both sources unseeded. -/
theorem applySeeding_spec (seed : ℤ) :
    (0 < seed → applySeeding seed = { npSeed := some seed, envSeed := some seed }) ∧
    (seed ≤ 0 → applySeeding seed = { npSeed := none, envSeed := none }) := by
  constructor
  · intro h
    simp [applySeeding, h]
  · intro h
    have : ¬ seed > 0 := by omega
    simp [applySeeding, this]

/-- C6 (witness): seed 1 seeds both sources with 1; seed 0 leaves both
unseeded. -/
theorem applySeeding_spec_witness :
    applySeeding 1 = { npSeed := some 1, envSeed := some 1 } ∧
    applySeeding 0 = { npSeed := none, envSeed := none } :=
  ⟨(applySeeding_spec 1).1 (by decide), (applySeeding_spec 0).2 (by decide)⟩

/-- C7: the driver dispatches mode `train` to the train loop and `test`
to the test loop, and any other mode string raises the fatal
`RuntimeError('undefined mode ...')`, which nothing catches. -/
theorem dispatchMode_spec (mode : String) :
    dispatchMode "train" = Dispatch.runTrain ∧
    dispatchMode "test" = Dispatch.runTest ∧
    (mode ≠ "train" → mode ≠ "test" →
      dispatchMode mode = Dispatch.invalidMode ("undefined mode " ++ mode)) := by
  refine ⟨rfl, rfl, fun h1 h2 => ?_⟩
  simp [dispatchMode, h1, h2]

/-- C7 (witness): the mode string `foo` is rejected with the undefined
mode error. -/
theorem dispatchMode_spec_witness :
    dispatchMode "foo" = Dispatch.invalidMode ("undefined mode " ++ "foo") :=
  (dispatchMode_spec "foo").2.2 (by decide) (by decide)

/-- Unrolling lemma: one more generation is one more `trainGen` step. -/
theorem trainRun_succ (stepsEA : Nat → Nat) (ss n : Nat) :
    trainRun stepsEA ss (n + 1) = trainGen stepsEA ss (trainRun stepsEA ss n) n := by
  unfold trainRun
  rw [List.range_succ, List.foldl_append]
  rfl

/-- Each generation appends exactly one row to the in-memory data frame. -/
theorem trainRun_df_length (stepsEA : Nat → Nat) (ss : Nat) :
    ∀ n, (trainRun stepsEA ss n).df.length = n := by
  intro n
  induction n with
  | zero => rfl
  | succ n ih =>
    rw [trainRun_succ]
    simp [trainGen, ih]

/-- Each generation persists the data frame once, before appending its
own row. -/
theorem trainRun_persisted_succ (stepsEA : Nat → Nat) (ss n : Nat) :
    (trainRun stepsEA ss (n + 1)).persisted =
      (trainRun stepsEA ss n).persisted ++ [(trainRun stepsEA ss n).df] := by
  rw [trainRun_succ]
  rfl

/-- The number of persist (to_pickle) calls equals the generation count. -/
theorem trainRun_persisted_length (stepsEA : Nat → Nat) (ss : Nat) :
    ∀ n, (trainRun stepsEA ss n).persisted.length = n := by
  intro n
  induction n with
  | zero => rfl
  | succ n ih =>
    rw [trainRun_persisted_succ]
    simp [ih]

/-- Every data-frame row records the placeholder score returned by
`train_rl`, namely 0. -/
theorem trainRun_df_scores (stepsEA : Nat → Nat) (ss : Nat) :
    ∀ n, ∀ row ∈ (trainRun stepsEA ss n).df, row.2 = 0 := by
  intro n
  induction n with
  | zero => intro row h; cases h
  | succ n ih =>
    rw [trainRun_succ]
    intro row h
    rcases List.mem_append.1 h with h1 | h1
    · exact ih row h1
    · rcases List.mem_singleton.1 h1 with rfl
      rfl

/-- C1 (counterexample): after a run of 2 generations (each consuming 20
environment steps), the on-disk score log — the last `to_pickle`
snapshot — holds the single row (20, 0), not the 2 rows the claim
requires; the recorded score is `train_rl`'s placeholder 0, not the
generation's best score. -/
theorem train_two_generations_log_one_row :
    (trainRun (fun _ => 20) 10000 2).persisted.getLastD [] = [(20, 0)] ∧
    ((trainRun (fun _ => 20) 10000 2).persisted.getLastD []).length ≠ 2 := by
  constructor
  · rfl
  · decide

/-- C1 (amended): the driver persists the score log exactly once per
generation, but each persist writes the data frame *before* this
generation's row is appended, so after `n + 1` completed generations the
on-disk log holds `n` rows while the in-memory frame holds `n + 1`; every
row's score field is the placeholder 0 returned by `train_rl`, and in
particular after a run of 2 generations the persisted log contains
exactly 1 row. -/
theorem trainRun_log_spec (stepsEA : Nat → Nat) (ss n : Nat) :
    (trainRun stepsEA ss (n + 1)).persisted.length = n + 1 ∧
    ((trainRun stepsEA ss (n + 1)).persisted.getLastD []).length = n ∧
    (trainRun stepsEA ss (n + 1)).df.length = n + 1 ∧
    (∀ row ∈ (trainRun stepsEA ss (n + 1)).df, row.2 = 0) := by
  refine ⟨trainRun_persisted_length stepsEA ss (n + 1), ?_,
    trainRun_df_length stepsEA ss (n + 1), trainRun_df_scores stepsEA ss (n + 1)⟩
  rw [trainRun_persisted_succ]
  simp [trainRun_df_length]

/-- C1 (witness): a 3-generation run of 5 steps each persists 3 times,
its final on-disk log has 2 rows, and the concrete row (5, 0) of the
in-memory frame carries the placeholder score 0. -/
theorem trainRun_log_spec_witness :
    ((trainRun (fun _ => 5) 0 3).persisted.getLastD []).length = 2 ∧
    ((5 : Nat), (0 : ℤ)).2 = 0 :=
  ⟨(trainRun_log_spec (fun _ => 5) 0 2).2.1,
   (trainRun_log_spec (fun _ => 5) 0 2).2.2.2 (5, 0) (by decide)⟩

/-- Every element of a clipped vector lies in `[-m, m]` when `0 ≤ m`. -/
theorem npClip_bounds {α : Type} [LinearOrderedAddCommGroup α] {m : α}
    (hm : 0 ≤ m) (xs : List α) : ∀ x ∈ npClip xs (-m) m, -m ≤ x ∧ x ≤ m := by
  intro x hx
  rcases List.mem_map.1 hx with ⟨y, _, rfl⟩
  exact ⟨le_min (le_max_right y (-m)) (neg_le_self hm), min_le_right _ m⟩

/-- With `random=False`, any action the policy closure returns has been
elementwise clipped to `[-max_action, max_action]`. -/
theorem policyStep_bounds {σ ω α : Type} [LinearOrderedAddCommGroup α]
    (env : EnvM σ ω α) (actor : ω → List α) (noise : NoiseArg α)
    {m : α} (hm : 0 ≤ m) (k : Nat) (obs : ω) (action : List α)
    (h : policyStep env actor noise false m k obs = Except.ok action) :
    ∀ x ∈ action, -m ≤ x ∧ x ≤ m := by
  unfold policyStep at h
  simp only [Bool.false_eq_true, if_false] at h
  cases noise with
  | noneArg =>
    have ha : npClip (actor obs) (-m) m = action := Except.ok.inj h
    rw [← ha]
    exact npClip_bounds hm _
  | falseArg => cases h
  | proc f =>
    have ha : npClip (List.zipWith (· + ·) (actor obs) (f k)) (-m) m = action :=
      Except.ok.inj h
    rw [← ha]
    exact npClip_bounds hm _

/-- A completed `while not done` loop produces a run of non-done steps,
then the done step, then the extra `env.reset()` call — nothing else. -/
theorem epLoop_trace {σ ω α : Type} [LinearOrder α] [Add α] [Neg α]
    (env : EnvM σ ω α) (actor : ω → List α) (noise : NoiseArg α)
    (random addMem : Bool) (m : α) :
    ∀ (fuel : Nat) (s : σ) (obs : ω) (k : Nat) (score : α)
      (mem : List (Transition ω α))
      (out : σ × Nat × α × List (Transition ω α) × List (EnvEvent α)),
      epLoop env actor noise random addMem m fuel s obs k score mem = Except.ok out →
      ∃ pre action,
        out.2.2.2.2 = pre ++ [EnvEvent.step action true, EnvEvent.reset] ∧
        ∀ e ∈ pre, ∃ a2, e = EnvEvent.step a2 false := by
  intro fuel
  induction fuel with
  | zero => intro s obs k score mem out h; cases h
  | succ fuel ih =>
    intro s obs k score mem out h
    simp only [epLoop] at h
    split at h
    · cases h
    · rename_i action0 hpol
      split at h
      · have hout := Except.ok.inj h
        subst hout
        exact ⟨[], action0, rfl, fun e he => absurd he (List.not_mem_nil e)⟩
      · split at h
        · cases h
        · rename_i s3 k3 sc3 mem3 tr hrec
          have hout := Except.ok.inj h
          subst hout
          rcases ih _ _ _ _ _ _ hrec with ⟨pre, action, htr, hpre⟩
          have htr2 : tr = pre ++ [EnvEvent.step action true, EnvEvent.reset] := htr
          refine ⟨EnvEvent.step action0 false :: pre, action, ?_, ?_⟩
          · show EnvEvent.step action0 false :: tr =
              (EnvEvent.step action0 false :: pre) ++ [EnvEvent.step action true, EnvEvent.reset]
            rw [htr2, List.cons_append]
          · intro e he
            rcases List.mem_cons.1 he with rfl | he2
            · exact ⟨action0, rfl⟩
            · exact hpre e he2

/-- C8: in every episode of a completed `evaluate` run, the environment
is reset once at episode start, the episode runs some non-done steps,
ends exactly at the first step the environment reports done, and is then
immediately reset a second time (the defensive double-reset). -/
theorem evaluate_episode_structure {σ ω α : Type} [LinearOrder α] [Add α] [Neg α] [Zero α]
    (env : EnvM σ ω α) (actor : ω → List α) (noise : NoiseArg α)
    (random addMem : Bool) (m : α) (fuel n : Nat) (s : σ) (k : Nat)
    (mem : List (Transition ω α))
    (out : σ × Nat × List α × List (Transition ω α) × List (List (EnvEvent α)))
    (h : evalEpisodes env actor noise random addMem m fuel n s k mem = Except.ok out) :
    ∀ tr ∈ out.2.2.2.2, ∃ pre action,
      tr = EnvEvent.reset :: (pre ++ [EnvEvent.step action true, EnvEvent.reset]) ∧
      ∀ e ∈ pre, ∃ a2, e = EnvEvent.step a2 false := by
  induction n generalizing s k mem out with
  | zero =>
    have hout := Except.ok.inj h
    subst hout
    intro tr htr
    cases htr
  | succ n ih =>
    simp only [evalEpisodes] at h
    split at h
    · cases h
    · rename_i s2 k2 score mem2 tr hep
      split at h
      · cases h
      · rename_i s3 k3 scores mem3 trs hrec
        have hout := Except.ok.inj h
        subst hout
        intro tr' htr'
        have htr'' : tr' ∈ (EnvEvent.reset :: tr) :: trs := htr'
        rcases List.mem_cons.1 htr'' with rfl | htr2
        · rcases epLoop_trace env actor noise random addMem m fuel _ _ _ _ _ _ hep with
            ⟨pre, action, htr, hpre⟩
          have htr3 : tr = pre ++ [EnvEvent.step action true, EnvEvent.reset] := htr
          exact ⟨pre, action, by rw [htr3], hpre⟩
        · exact ih _ _ _ _ hrec tr' htr2

/-- Every action recorded in a completed `while not done` loop with
`random=False` is elementwise inside `[-max_action, max_action]`. -/
theorem epLoop_actions {σ ω α : Type} [LinearOrderedAddCommGroup α]
    (env : EnvM σ ω α) (actor : ω → List α) (noise : NoiseArg α)
    (addMem : Bool) {m : α} (hm : 0 ≤ m) :
    ∀ (fuel : Nat) (s : σ) (obs : ω) (k : Nat) (score : α)
      (mem : List (Transition ω α))
      (out : σ × Nat × α × List (Transition ω α) × List (EnvEvent α)),
      epLoop env actor noise false addMem m fuel s obs k score mem = Except.ok out →
      ∀ action d, EnvEvent.step action d ∈ out.2.2.2.2 →
        ∀ x ∈ action, -m ≤ x ∧ x ≤ m := by
  intro fuel
  induction fuel with
  | zero => intro s obs k score mem out h; cases h
  | succ fuel ih =>
    intro s obs k score mem out h
    simp only [epLoop] at h
    split at h
    · cases h
    · rename_i action0 hpol
      split at h
      · have hout := Except.ok.inj h
        subst hout
        intro action d hmem x hx
        have hmem' : EnvEvent.step action d ∈
            [EnvEvent.step action0 true, EnvEvent.reset] := hmem
        rcases List.mem_cons.1 hmem' with heq | hmem2
        · cases heq
          exact policyStep_bounds env actor noise hm _ _ _ hpol x hx
        · have heq := List.mem_singleton.1 hmem2
          cases heq
      · split at h
        · cases h
        · rename_i s3 k3 sc3 mem3 tr hrec
          have hout := Except.ok.inj h
          subst hout
          intro action d hmem x hx
          have hmem' : EnvEvent.step action d ∈ EnvEvent.step action0 false :: tr := hmem
          rcases List.mem_cons.1 hmem' with heq | hmem2
          · cases heq
            exact policyStep_bounds env actor noise hm _ _ _ hpol x hx
          · exact ih _ _ _ _ _ _ hrec action d hmem2 x hx

/-- C9: in a completed `evaluate` run with `random=False` and a
nonnegative action bound, every action passed to `env.step` — with or
without exploration noise added first — lies elementwise within
`[-max_action, max_action]`. -/
theorem evaluate_actions_clipped {σ ω α : Type} [LinearOrderedAddCommGroup α]
    (env : EnvM σ ω α) (actor : ω → List α) (noise : NoiseArg α)
    (addMem : Bool) {m : α} (hm : 0 ≤ m) (fuel n : Nat) (s : σ) (k : Nat)
    (mem : List (Transition ω α))
    (out : σ × Nat × List α × List (Transition ω α) × List (List (EnvEvent α)))
    (h : evalEpisodes env actor noise false addMem m fuel n s k mem = Except.ok out) :
    ∀ tr ∈ out.2.2.2.2, ∀ action d, EnvEvent.step action d ∈ tr →
      ∀ x ∈ action, -m ≤ x ∧ x ≤ m := by
  induction n generalizing s k mem out with
  | zero =>
    have hout := Except.ok.inj h
    subst hout
    intro tr htr
    cases htr
  | succ n ih =>
    simp only [evalEpisodes] at h
    split at h
    · cases h
    · rename_i s2 k2 score mem2 tr hep
      split at h
      · cases h
      · rename_i s3 k3 scores mem3 trs hrec
        have hout := Except.ok.inj h
        subst hout
        intro tr' htr' action d hmem x hx
        have htr'' : tr' ∈ (EnvEvent.reset :: tr) :: trs := htr'
        rcases List.mem_cons.1 htr'' with rfl | htr2
        · rcases List.mem_cons.1 hmem with heq | hmem2
          · cases heq
          · exact epLoop_actions env actor noise addMem hm fuel _ _ _ _ _ _ hep
              action d hmem2 x hx
        · exact ih _ _ _ _ hrec tr' htr2 action d hmem x hx

/-- C3: `test` passes `noise=False` to `evaluate`, whose guard
`noise is not None` treats Python `False` as a noise process; the very
first policy call of the very first episode therefore raises
`AttributeError` on `False.sample()`, so no episode is ever evaluated
without noise and no mean return is reported. -/
theorem test_noise_false_crashes {σ ω α : Type} [LinearOrderedField α]
    (env : EnvM σ ω α) (actor : ω → List α) (m : α) (fuel n_test : Nat)
    (s : σ) (hn : 1 ≤ n_test) (hf : 1 ≤ fuel) :
    test_run env actor m fuel n_test s = Except.error boolSampleErr := by
  obtain ⟨nt, rfl⟩ : ∃ nt, n_test = nt + 1 := ⟨n_test - 1, by omega⟩
  obtain ⟨f, rfl⟩ : ∃ f, fuel = f + 1 := ⟨fuel - 1, by omega⟩
  simp [test_run, evaluateRun, evalEpisodes, epLoop, policyStep]

/-- A minimal concrete environment over trivial state and integer
scalars: every step returns reward 0 and immediately reports done. -/
def unitIntEnv : EnvM Unit Unit ℤ :=
  { reset := fun _ => ((), ()),
    step := fun _ _ => ((), (), 0, true),
    actionSample := fun _ => [] }

/-- The same minimal environment over rational scalars. -/
def unitRatEnv : EnvM Unit Unit ℚ :=
  { reset := fun _ => ((), ()),
    step := fun _ _ => ((), (), 0, true),
    actionSample := fun _ => [] }

/-- C8 (witness): a concrete one-step evaluation run produces the trace
reset, done step, reset, matching the double-reset pattern. -/
theorem evaluate_episode_structure_witness :
    ∃ pre action,
      ([EnvEvent.reset, EnvEvent.step ([2] : List ℤ) true, EnvEvent.reset] :
          List (EnvEvent ℤ)) =
        EnvEvent.reset :: (pre ++ [EnvEvent.step action true, EnvEvent.reset]) ∧
      ∀ e ∈ pre, ∃ a2, e = EnvEvent.step a2 false := by
  have h : evalEpisodes unitIntEnv (fun _ => [5]) NoiseArg.noneArg false true
      2 1 1 () 0 [] =
      Except.ok ((), 1, [0], [((), (), [2], 0, true)],
        [[EnvEvent.reset, EnvEvent.step [2] true, EnvEvent.reset]]) := rfl
  exact evaluate_episode_structure unitIntEnv (fun _ => [5]) NoiseArg.noneArg false true
    2 1 1 () 0 [] _ h
    [EnvEvent.reset, EnvEvent.step [2] true, EnvEvent.reset] (by decide)

/-- C9 (witness): in the concrete run with actor output 5 and bound 2,
the action reaching the environment is the clipped value 2, inside
the interval. -/
theorem evaluate_actions_clipped_witness : -2 ≤ (2 : ℤ) ∧ (2 : ℤ) ≤ 2 := by
  have h : evalEpisodes unitIntEnv (fun _ => [5]) NoiseArg.noneArg false true
      2 1 1 () 0 [] =
      Except.ok ((), 1, [0], [((), (), [2], 0, true)],
        [[EnvEvent.reset, EnvEvent.step [2] true, EnvEvent.reset]]) := rfl
  exact evaluate_actions_clipped unitIntEnv (fun _ => [5]) NoiseArg.noneArg true
    (by decide : (0 : ℤ) ≤ 2) 1 1 () 0 [] _ h
    [EnvEvent.reset, EnvEvent.step [2] true, EnvEvent.reset] (by decide)
    [2] true (by decide) 2 (by decide)

/-- C3 (witness): a concrete one-episode test run fails with the
`AttributeError` from `False.sample()`. -/
theorem test_noise_false_crashes_witness :
    test_run unitRatEnv (fun _ => [5]) 2 1 1 () = Except.error boolSampleErr :=
  test_noise_false_crashes unitRatEnv (fun _ => [5]) 2 1 1 () (by decide) (by decide)

/-- C10: for an environment whose action bound is strictly between 0 and
1, `int()` truncation makes `max_action` equal 0, the actor's output
scaling `max_action * tanh(...)` maps every output vector to all zeros,
and `np.clip(action, -max_action, max_action)` collapses every action
vector to all zeros. -/
theorem max_action_unit_interval_collapse (high : ℚ) (t a : List ℚ)
    (h0 : 0 < high) (h1 : high < 1) :
    maxActionOf high = 0 ∧
    actorERL_scale (maxActionOf high) t = t.map (fun _ => 0) ∧
    npClip a (-((maxActionOf high : ℤ) : ℚ)) ((maxActionOf high : ℤ) : ℚ) =
      a.map (fun _ => 0) := by
  have hfloor : maxActionOf high = 0 := by
    unfold maxActionOf pyInt
    rw [if_pos h0.le]
    exact Int.floor_eq_zero_iff.mpr (Set.mem_Ico.mpr ⟨h0.le, h1⟩)
  refine ⟨hfloor, ?_, ?_⟩
  · rw [hfloor]
    simp [actorERL_scale]
  · rw [hfloor]
    have hz : ∀ x : ℚ, min (max x (-(0 : ℚ))) 0 = 0 := fun x => by
      rw [neg_zero]
      exact min_eq_right (le_max_right x 0)
    simp [npClip, hz]

/-- C10 (witness): the action bound 1/2 truncates to a `max_action`
of 0. -/
theorem max_action_unit_interval_collapse_witness :
    maxActionOf (1/2 : ℚ) = 0 :=
  (max_action_unit_interval_collapse (1/2) [] [] (by norm_num) (by norm_num)).1

end CEMRL
